import Mathlib

/-!
Formal model of the PvP rating tracker (SQLite-backed db module plus the
polling loop in tracker.ts).

Modelling conventions:
* The three SQLite tables are lists kept in insertion (rowid) order, with an
  explicit autoincrement counter for each table.
* Numeric data fields are `Int` (JavaScript number arithmetic on integral
  values); row ids and timestamps are `Nat`.  SQLite's CURRENT_TIMESTAMP has
  one-second resolution and compares as an ISO-8601 string, so an ordered
  `Nat` logical instant supplied by the caller is an order-faithful model;
  distinct inserts may share a timestamp.
* `ORDER BY timestamp DESC LIMIT 1` and `ORDER BY timestamp ASC` carry no
  tiebreaker.  SQLite answers both queries by scanning the
  (character_id, bracket) index in rowid order and sorting with a temp
  B-tree, which is stable with respect to the scan, so rows with equal
  timestamps come back in insertion order (verified against SQLite 3.40 on
  the exact schema and queries of the source).  `getLatestSnapshot` therefore
  returns the earliest-inserted row among those with the maximal timestamp,
  and `getRatingChanges` is a stable ascending sort by timestamp.
* JavaScript truthiness: `if (bracket)` in getRatingChanges treats the empty
  string like an absent argument, so the model only adds the bracket filter
  for a non-empty string.
-/

/-- season_match_statistics / weekly_match_statistics of PvPBracketData. -/
structure MatchStatistics where
  played : Int
  won : Int
  lost : Int
deriving DecidableEq, Repr

/-- The shape of one fetched bracket payload (interface PvPBracketData). -/
structure PvPBracketData where
  rating : Int
  season_match_statistics : MatchStatistics
  weekly_match_statistics : MatchStatistics
deriving DecidableEq, Repr

/-- One row of the characters table. -/
structure CharacterRow where
  id : Nat
  name : String
  realm_slug : String
  region : String
deriving DecidableEq, Repr

/-- One row of the pvp_snapshots table. -/
structure SnapshotRow where
  id : Nat
  character_id : Nat
  bracket : String
  timestamp : Nat
  rating : Int
  season_played : Int
  season_won : Int
  season_lost : Int
  weekly_played : Int
  weekly_won : Int
  weekly_lost : Int
deriving DecidableEq, Repr

/-- One row of the rating_changes table. -/
structure RatingChangeRow where
  id : Nat
  character_id : Nat
  bracket : String
  timestamp : Nat
  old_rating : Int
  new_rating : Int
  rating_change : Int
  games_played : Int
  games_won : Int
  games_lost : Int
deriving DecidableEq, Repr

/-- The whole database: three tables in insertion (rowid) order, plus the
next autoincrement id of each table. -/
structure Db where
  characters : List CharacterRow
  pvp_snapshots : List SnapshotRow
  rating_changes : List RatingChangeRow
  nextCharId : Nat
  nextSnapId : Nat
  nextChangeId : Nat
deriving DecidableEq, Repr

/-- The freshly created database (schema just initialized; SQLite rowids
start at 1). -/
def emptyDb : Db :=
  { characters := [], pvp_snapshots := [], rating_changes := [],
    nextCharId := 1, nextSnapId := 1, nextChangeId := 1 }

/-- JavaScript String.prototype.toLowerCase, character by character (the
same function String.toLower computes; spelled as a plain map so that it
evaluates by kernel reduction). -/
def jsToLower (s : String) : String := ⟨s.data.map Char.toLower⟩

/-- WHERE name = ? AND realm_slug = ? AND region = ? (BINARY collation). -/
def charMatches (name realmSlug region : String) (c : CharacterRow) : Bool :=
  c.name == name && c.realm_slug == realmSlug && c.region == region

/-- getOrCreateCharacter: lower-cases the three fields, INSERT OR IGNORE,
then SELECT id for the same triple.  The SELECT cannot miss after the
upsert; the unreachable branch returns 0 (the TypeScript would crash there
reading `row.id` of `undefined`). -/
def getOrCreateCharacter (name realmSlug region : String) (db : Db) : Nat × Db :=
  let n := jsToLower name
  let r := jsToLower realmSlug
  let g := jsToLower region
  let db1 :=
    if db.characters.any (charMatches n r g) then db
    else { db with
            characters := db.characters ++ [⟨db.nextCharId, n, r, g⟩],
            nextCharId := db.nextCharId + 1 }
  match db1.characters.find? (charMatches n r g) with
  | some c => (c.id, db1)
  | none => (0, db1)

/-- WHERE character_id = ? AND bracket = ? on pvp_snapshots. -/
def snapMatches (characterId : Nat) (bracket : String) (s : SnapshotRow) : Bool :=
  s.character_id == characterId && s.bracket == bracket

/-- Running best of ORDER BY timestamp DESC LIMIT 1 over a rowid-ordered
scan: a later row replaces the best only when its timestamp is strictly
larger, so the earliest-inserted row among the maximal timestamps wins
(stable temp-B-tree sort, see header). -/
def latestOf : Option SnapshotRow → List SnapshotRow → Option SnapshotRow
  | best, [] => best
  | none, s :: rest => latestOf (some s) rest
  | some b, s :: rest => latestOf (if s.timestamp > b.timestamp then some s else some b) rest

/-- getLatestSnapshot: SELECT * FROM pvp_snapshots WHERE character_id = ?
AND bracket = ? ORDER BY timestamp DESC LIMIT 1. -/
def getLatestSnapshot (characterId : Nat) (bracket : String) (db : Db) :
    Option SnapshotRow :=
  latestOf none (db.pvp_snapshots.filter (snapMatches characterId bracket))

/-- saveSnapshot: INSERT INTO pvp_snapshots (...), timestamp defaulting to
CURRENT_TIMESTAMP (passed here as `now`). -/
def saveSnapshot (characterId : Nat) (bracket : String) (data : PvPBracketData)
    (now : Nat) (db : Db) : Db :=
  { db with
    pvp_snapshots := db.pvp_snapshots ++
      [{ id := db.nextSnapId
         character_id := characterId
         bracket := bracket
         timestamp := now
         rating := data.rating
         season_played := data.season_match_statistics.played
         season_won := data.season_match_statistics.won
         season_lost := data.season_match_statistics.lost
         weekly_played := data.weekly_match_statistics.played
         weekly_won := data.weekly_match_statistics.won
         weekly_lost := data.weekly_match_statistics.lost }],
    nextSnapId := db.nextSnapId + 1 }

/-- recordRatingChange: INSERT INTO rating_changes (...); the stored
rating_change column is computed as newRating - oldRating. -/
def recordRatingChange (characterId : Nat) (bracket : String)
    (oldRating newRating gamesPlayed gamesWon gamesLost : Int)
    (now : Nat) (db : Db) : Db :=
  { db with
    rating_changes := db.rating_changes ++
      [{ id := db.nextChangeId
         character_id := characterId
         bracket := bracket
         timestamp := now
         old_rating := oldRating
         new_rating := newRating
         rating_change := newRating - oldRating
         games_played := gamesPlayed
         games_won := gamesWon
         games_lost := gamesLost }],
    nextChangeId := db.nextChangeId + 1 }

/-- Timestamp order on ledger rows, the ORDER BY key of getRatingChanges. -/
def tsLE (a b : RatingChangeRow) : Prop := a.timestamp ≤ b.timestamp

instance : DecidableRel tsLE := fun a b => Nat.decLe a.timestamp b.timestamp

instance : IsTotal RatingChangeRow tsLE := ⟨fun a b => Nat.le_total a.timestamp b.timestamp⟩

instance : IsTrans RatingChangeRow tsLE := ⟨fun _ _ _ h h2 => Nat.le_trans h h2⟩

/-- getRatingChanges: SELECT ... FROM rating_changes WHERE character_id = ?
[AND bracket = ?] ORDER BY timestamp ASC.  The bracket clause is only added
when `if (bracket)` is truthy, i.e. the argument is present and non-empty.
ORDER BY has no tiebreaker; SQLite returns equal timestamps in rowid order
(stable sort over the insertion-ordered scan), modelled by a stable
insertion sort on the insertion-ordered table. -/
def getRatingChanges (characterId : Nat) (bracket : Option String) (db : Db) :
    List RatingChangeRow :=
  let byChar := db.rating_changes.filter (fun row => row.character_id == characterId)
  let rows :=
    match bracket with
    | some b => if b == "" then byChar else byChar.filter (fun row => row.bracket == b)
    | none => byChar
  List.insertionSort tsLE rows

/-- Return value of processSnapshot: `{ changed: boolean; ratingChange?: number }`. -/
structure ProcessResult where
  changed : Bool
  ratingChange : Option Int
deriving DecidableEq, Repr

/-- processSnapshot: read the latest stored snapshot, always save the new
one, then diff the season played counter against the previous snapshot and
record a rating change only when it strictly increased. -/
def processSnapshot (characterId : Nat) (bracket : String)
    (currentData : PvPBracketData) (now : Nat) (db : Db) : ProcessResult × Db :=
  let lastSnapshot := getLatestSnapshot characterId bracket db
  let db := saveSnapshot characterId bracket currentData now db
  match lastSnapshot with
  | none => ({ changed := false, ratingChange := none }, db)
  | some last =>
    let gamesPlayedDiff := currentData.season_match_statistics.played - last.season_played
    if gamesPlayedDiff > 0 then
      let gamesWonDiff := currentData.season_match_statistics.won - last.season_won
      let gamesLostDiff := currentData.season_match_statistics.lost - last.season_lost
      let ratingChange := currentData.rating - last.rating
      let db := recordRatingChange characterId bracket last.rating currentData.rating
        gamesPlayedDiff gamesWonDiff gamesLostDiff now db
      ({ changed := true, ratingChange := some ratingChange }, db)
    else
      ({ changed := false, ratingChange := none }, db)

/-- Observable outcome of fetchPvPBracket in tracker.ts: a parsed payload on
success, `null` on HTTP 404, and a thrown Error for any other non-ok
response (network/authentication failures included). -/
inductive FetchOutcome where
  | success (data : PvPBracketData)
  | notFound
  | failure (message : String)
deriving DecidableEq, Repr

/-- Whether a fetch outcome is a thrown error. -/
def FetchOutcome.isFailure : FetchOutcome → Bool
  | .failure _ => true
  | _ => false

/-- The `for (const bracket of CONFIG.brackets)` loop of pollOnce.  The
try/catch sits OUTSIDE this loop, so a thrown fetch error unwinds past the
remaining brackets to the cycle-level catch, which logs and returns: the
loop stops at the first failing bracket and the database keeps only the
work done before it. -/
def pollBrackets (fetch : String → FetchOutcome) (characterId : Nat)
    (brackets : List String) (now : Nat) (db : Db) : Db :=
  match brackets with
  | [] => db
  | b :: rest =>
    match fetch b with
    | .success data => pollBrackets fetch characterId rest now (processSnapshot characterId b data now db).2
    | .notFound => pollBrackets fetch characterId rest now db
    | .failure _ => db

/-- pollOnce (with a successfully acquired token): resolve the character,
then run the bracket loop; any thrown error is caught at the cycle level. -/
def pollOnce (fetch : String → FetchOutcome) (name realmSlug region : String)
    (brackets : List String) (now : Nat) (db : Db) : Db :=
  let resolved := getOrCreateCharacter name realmSlug region db
  pollBrackets fetch resolved.1 brackets now resolved.2

/-- Database states reachable by the program: it starts from the freshly
initialized schema and mutates state only through getOrCreateCharacter and
processSnapshot (tracker.ts imports exactly those two writers; timestamps
are arbitrary). -/
inductive Reachable : Db → Prop where
  | init : Reachable emptyDb
  | char (name realmSlug region : String) {db : Db} :
      Reachable db → Reachable (getOrCreateCharacter name realmSlug region db).2
  | snap (characterId : Nat) (bracket : String) (data : PvPBracketData)
      (now : Nat) {db : Db} :
      Reachable db → Reachable (processSnapshot characterId bracket data now db).2

/-! ### Helper lemmas -/

/-- A snapshot row freshly saved for a pair matches that pair's WHERE clause. -/
lemma snapMatches_saved (characterId : Nat) (bracket : String)
    (data : PvPBracketData) (now : Nat) (db : Db) :
    snapMatches characterId bracket
      ⟨db.nextSnapId, characterId, bracket, now, data.rating,
        data.season_match_statistics.played, data.season_match_statistics.won,
        data.season_match_statistics.lost, data.weekly_match_statistics.played,
        data.weekly_match_statistics.won, data.weekly_match_statistics.lost⟩ = true := by
  simp [snapMatches]

/-- Unfolding processSnapshot when a previous snapshot exists and the season
played counter strictly increased. -/
lemma processSnapshot_eq_of_increase (characterId : Nat) (bracket : String)
    (data : PvPBracketData) (now : Nat) (db : Db) (s1 : SnapshotRow)
    (h : getLatestSnapshot characterId bracket db = some s1)
    (h2 : s1.season_played < data.season_match_statistics.played) :
    processSnapshot characterId bracket data now db =
      ({ changed := true, ratingChange := some (data.rating - s1.rating) },
        recordRatingChange characterId bracket s1.rating data.rating
          (data.season_match_statistics.played - s1.season_played)
          (data.season_match_statistics.won - s1.season_won)
          (data.season_match_statistics.lost - s1.season_lost) now
          (saveSnapshot characterId bracket data now db)) := by
  have hpos : data.season_match_statistics.played - s1.season_played > 0 :=
    Int.sub_pos.mpr h2
  simp only [processSnapshot, h, if_pos hpos]

/-- Unfolding processSnapshot when a previous snapshot exists and the season
played counter did not strictly increase. -/
lemma processSnapshot_eq_of_no_increase (characterId : Nat) (bracket : String)
    (data : PvPBracketData) (now : Nat) (db : Db) (s1 : SnapshotRow)
    (h : getLatestSnapshot characterId bracket db = some s1)
    (h2 : data.season_match_statistics.played ≤ s1.season_played) :
    processSnapshot characterId bracket data now db =
      ({ changed := false, ratingChange := none },
        saveSnapshot characterId bracket data now db) := by
  have hneg : ¬ data.season_match_statistics.played - s1.season_played > 0 := by
    simp only [gt_iff_lt, not_lt]
    exact Int.sub_nonpos_of_le h2
  simp only [processSnapshot, h, if_neg hneg]

/-- Unfolding processSnapshot when no previous snapshot exists. -/
lemma processSnapshot_eq_of_first (characterId : Nat) (bracket : String)
    (data : PvPBracketData) (now : Nat) (db : Db)
    (h : getLatestSnapshot characterId bracket db = none) :
    processSnapshot characterId bracket data now db =
      ({ changed := false, ratingChange := none },
        saveSnapshot characterId bracket data now db) := by
  simp only [processSnapshot, h]

/-- The running best of latestOf never disappears. -/
lemma latestOf_some_isSome : ∀ (l : List SnapshotRow) (b : SnapshotRow),
    ∃ s, latestOf (some b) l = some s
  | [], b => ⟨b, rfl⟩
  | s :: rest, b => by
    simp only [latestOf]
    split
    · exact latestOf_some_isSome rest s
    · exact latestOf_some_isSome rest b

/-- latestOf with a running best keeps the best when nothing beats it, and
otherwise returns the first strict improvement of the running maximum. -/
lemma latestOf_some_spec : ∀ (l : List SnapshotRow) (b s : SnapshotRow),
    latestOf (some b) l = some s →
    (s = b ∧ ∀ r ∈ l, r.timestamp ≤ b.timestamp) ∨
    (∃ l₁ l₂, l = l₁ ++ s :: l₂ ∧ b.timestamp < s.timestamp ∧
      (∀ r ∈ l₁, r.timestamp < s.timestamp) ∧ (∀ r ∈ l₂, r.timestamp ≤ s.timestamp))
  | [], b, s => by
    intro h
    simp only [latestOf, Option.some.injEq] at h
    exact Or.inl ⟨h.symm, by simp⟩
  | r :: rest, b, s => by
    intro h
    simp only [latestOf] at h
    by_cases hr : r.timestamp > b.timestamp
    · rw [if_pos hr] at h
      rcases latestOf_some_spec rest r s h with ⟨hs, hall⟩ | ⟨l₁, l₂, hdec, hlt, h₁, h₂⟩
      · subst hs
        exact Or.inr ⟨[], rest, rfl, hr, by simp, hall⟩
      · refine Or.inr ⟨r :: l₁, l₂, by rw [hdec, List.cons_append], lt_trans hr hlt, ?_, h₂⟩
        intro x hx
        rcases List.mem_cons.mp hx with hx | hx
        · subst hx; exact hlt
        · exact h₁ x hx
    · rw [if_neg hr] at h
      push_neg at hr
      rcases latestOf_some_spec rest b s h with ⟨hs, hall⟩ | ⟨l₁, l₂, hdec, hlt, h₁, h₂⟩
      · subst hs
        refine Or.inl ⟨rfl, ?_⟩
        intro x hx
        rcases List.mem_cons.mp hx with hx | hx
        · subst hx; exact hr
        · exact hall x hx
      · refine Or.inr ⟨r :: l₁, l₂, by rw [hdec, List.cons_append], hlt, ?_, h₂⟩
        intro x hx
        rcases List.mem_cons.mp hx with hx | hx
        · subst hx; exact lt_of_le_of_lt hr hlt
        · exact h₁ x hx

/-- The result of the DESC LIMIT 1 scan is the first row of the scan that
attains the maximal timestamp. -/
lemma latestOf_none_spec (l : List SnapshotRow) (s : SnapshotRow)
    (h : latestOf none l = some s) :
    ∃ l₁ l₂, l = l₁ ++ s :: l₂ ∧
      (∀ r ∈ l₁, r.timestamp < s.timestamp) ∧ (∀ r ∈ l₂, r.timestamp ≤ s.timestamp) := by
  cases l with
  | nil => simp [latestOf] at h
  | cons x rest =>
    simp only [latestOf] at h
    rcases latestOf_some_spec rest x s h with ⟨hs, hall⟩ | ⟨l₁, l₂, hdec, hlt, h₁, h₂⟩
    · subst hs
      exact ⟨[], rest, rfl, by simp, hall⟩
    · refine ⟨x :: l₁, l₂, by rw [hdec, List.cons_append], ?_, h₂⟩
      intro r hr
      rcases List.mem_cons.mp hr with hr | hr
      · subst hr; exact hlt
      · exact h₁ r hr

/-- Appending a strictly fresher row makes it the running maximum. -/
lemma latestOf_some_append_fresh : ∀ (l : List SnapshotRow) (b s : SnapshotRow),
    (∀ r ∈ l, r.timestamp < s.timestamp) → b.timestamp < s.timestamp →
    latestOf (some b) (l ++ [s]) = some s
  | [], b, s => by
    intro _ hb
    simp only [List.nil_append, latestOf, if_pos hb]
  | r :: rest, b, s => by
    intro hl hb
    simp only [List.cons_append, latestOf]
    split
    · exact latestOf_some_append_fresh rest r s
        (fun x hx => hl x (List.mem_cons_of_mem r hx)) (hl r (List.mem_cons_self r rest))
    · exact latestOf_some_append_fresh rest b s
        (fun x hx => hl x (List.mem_cons_of_mem r hx)) hb

/-- Appending a strictly fresher row to the scan returns that row. -/
lemma latestOf_none_append_fresh (l : List SnapshotRow) (s : SnapshotRow)
    (hl : ∀ r ∈ l, r.timestamp < s.timestamp) :
    latestOf none (l ++ [s]) = some s := by
  cases l with
  | nil => rfl
  | cons x rest =>
    simp only [List.cons_append, latestOf]
    exact latestOf_some_append_fresh rest x s
      (fun r hr => hl r (List.mem_cons_of_mem x hr)) (hl x (List.mem_cons_self x rest))

/-- After saveSnapshot with a timestamp strictly newer than every stored
snapshot of the pair, getLatestSnapshot returns the row just saved. -/
lemma getLatestSnapshot_after_fresh_save (characterId : Nat) (bracket : String)
    (data : PvPBracketData) (now : Nat) (db : Db)
    (hfresh : ∀ r ∈ db.pvp_snapshots, snapMatches characterId bracket r = true →
      r.timestamp < now) :
    getLatestSnapshot characterId bracket (saveSnapshot characterId bracket data now db) =
      some ⟨db.nextSnapId, characterId, bracket, now, data.rating,
        data.season_match_statistics.played, data.season_match_statistics.won,
        data.season_match_statistics.lost, data.weekly_match_statistics.played,
        data.weekly_match_statistics.won, data.weekly_match_statistics.lost⟩ := by
  unfold getLatestSnapshot saveSnapshot
  rw [List.filter_append]
  simp only [List.filter_cons, snapMatches_saved, if_pos, List.filter_nil]
  exact latestOf_none_append_fresh _ _
    (fun r hr => hfresh r (List.mem_filter.mp hr).1 (List.mem_filter.mp hr).2)

/-- Inserting an element below every element of the list puts it in front. -/
lemma orderedInsert_of_all_le (a : RatingChangeRow) :
    ∀ (l : List RatingChangeRow), (∀ x ∈ l, tsLE a x) →
      List.orderedInsert tsLE a l = a :: l
  | [], _ => rfl
  | b :: t, h => by
    simp [List.orderedInsert, if_pos (h b (List.mem_cons_self b t))]

/-- Filtering commutes with one ordered insertion into a sorted list. -/
lemma filter_orderedInsert (p : RatingChangeRow → Bool) (a : RatingChangeRow) :
    ∀ (l : List RatingChangeRow), List.Sorted tsLE l →
      (List.orderedInsert tsLE a l).filter p =
        if p a then List.orderedInsert tsLE a (l.filter p) else l.filter p
  | [], _ => by
    cases hpa : p a <;> simp [List.orderedInsert, List.filter_cons, hpa]
  | b :: t, hs => by
    have hb : ∀ x ∈ t, tsLE b x := (List.sorted_cons.mp hs).1
    have ht : List.Sorted tsLE t := (List.sorted_cons.mp hs).2
    by_cases hab : tsLE a b
    · rw [show List.orderedInsert tsLE a (b :: t) = a :: b :: t from by
        simp [List.orderedInsert, if_pos hab]]
      cases hpa : p a
      · simp [List.filter_cons, hpa]
      · cases hpb : p b
        · have hfront : List.orderedInsert tsLE a (t.filter p) = a :: t.filter p :=
            orderedInsert_of_all_le a _
              (fun x hx => Nat.le_trans hab (hb x (List.mem_filter.mp hx).1))
          simp [List.filter_cons, hpa, hpb, hfront]
        · simp [List.filter_cons, hpa, hpb, List.orderedInsert, if_pos hab]
    · rw [show List.orderedInsert tsLE a (b :: t) = b :: List.orderedInsert tsLE a t from by
        simp [List.orderedInsert, if_neg hab]]
      have IH := filter_orderedInsert p a t ht
      cases hpa : p a <;> cases hpb : p b <;>
        simp [List.filter_cons, hpa, hpb, IH, List.orderedInsert, hab]

/-- Filtering commutes with the stable insertion sort: the sorted view of a
filtered table is the filtered sorted view. -/
lemma filter_insertionSort (p : RatingChangeRow → Bool) :
    ∀ (l : List RatingChangeRow),
      (List.insertionSort tsLE l).filter p = List.insertionSort tsLE (l.filter p)
  | [] => rfl
  | a :: t => by
    have hs := List.sorted_insertionSort tsLE t
    rw [show List.insertionSort tsLE (a :: t) =
          List.orderedInsert tsLE a (List.insertionSort tsLE t) from rfl]
    rw [filter_orderedInsert p a _ hs, filter_insertionSort p t]
    cases hpa : p a <;> simp [List.filter_cons, hpa, List.insertionSort]

/-- find? skips a block in which the predicate always fails. -/
lemma find?_append_of_all_false {α : Type} (p : α → Bool) :
    ∀ (l l' : List α), (∀ y ∈ l, p y = false) →
      List.find? p (l ++ l') = List.find? p l'
  | [], _, _ => rfl
  | x :: t, l', h => by
    have hx : p x = false := h x (List.mem_cons_self x t)
    rw [List.cons_append, List.find?_cons_of_neg _ (by simp [hx]),
      find?_append_of_all_false p t l' (fun y hy => h y (List.mem_cons_of_mem x hy))]

/-- getOrCreateCharacter either leaves the database unchanged or appends
exactly one characters row. -/
lemma getOrCreateCharacter_db (name realmSlug region : String) (db : Db) :
    (getOrCreateCharacter name realmSlug region db).2 = db ∨
    ∃ c : CharacterRow, (getOrCreateCharacter name realmSlug region db).2 =
      { db with characters := db.characters ++ [c], nextCharId := db.nextCharId + 1 } := by
  simp only [getOrCreateCharacter]
  by_cases hc : db.characters.any
    (charMatches (jsToLower name) (jsToLower realmSlug) (jsToLower region))
  · simp only [if_pos hc]
    split <;> exact Or.inl rfl
  · simp only [if_neg hc]
    split <;> exact Or.inr ⟨_, rfl⟩

/-- processSnapshot never touches the characters table. -/
lemma processSnapshot_characters (characterId : Nat) (bracket : String)
    (data : PvPBracketData) (now : Nat) (db : Db) :
    (processSnapshot characterId bracket data now db).2.characters = db.characters := by
  cases hls : getLatestSnapshot characterId bracket db with
  | none =>
    rw [processSnapshot_eq_of_first characterId bracket data now db hls]
    simp [saveSnapshot]
  | some s1 =>
    by_cases hinc : s1.season_played < data.season_match_statistics.played
    · rw [processSnapshot_eq_of_increase characterId bracket data now db s1 hls hinc]
      simp [recordRatingChange, saveSnapshot]
    · rw [processSnapshot_eq_of_no_increase characterId bracket data now db s1 hls
        (le_of_not_lt hinc)]
      simp [saveSnapshot]

/-- processSnapshot appends exactly the freshly fetched snapshot row. -/
lemma processSnapshot_snapshots (characterId : Nat) (bracket : String)
    (data : PvPBracketData) (now : Nat) (db : Db) :
    (processSnapshot characterId bracket data now db).2.pvp_snapshots =
      db.pvp_snapshots ++
        [⟨db.nextSnapId, characterId, bracket, now, data.rating,
          data.season_match_statistics.played, data.season_match_statistics.won,
          data.season_match_statistics.lost, data.weekly_match_statistics.played,
          data.weekly_match_statistics.won, data.weekly_match_statistics.lost⟩] := by
  cases hls : getLatestSnapshot characterId bracket db with
  | none =>
    rw [processSnapshot_eq_of_first characterId bracket data now db hls]
    simp [saveSnapshot]
  | some s1 =>
    by_cases hinc : s1.season_played < data.season_match_statistics.played
    · rw [processSnapshot_eq_of_increase characterId bracket data now db s1 hls hinc]
      simp [recordRatingChange, saveSnapshot]
    · rw [processSnapshot_eq_of_no_increase characterId bracket data now db s1 hls
        (le_of_not_lt hinc)]
      simp [saveSnapshot]

/-- processSnapshot advances the snapshot autoincrement by one. -/
lemma processSnapshot_nextSnapId (characterId : Nat) (bracket : String)
    (data : PvPBracketData) (now : Nat) (db : Db) :
    (processSnapshot characterId bracket data now db).2.nextSnapId = db.nextSnapId + 1 := by
  cases hls : getLatestSnapshot characterId bracket db with
  | none =>
    rw [processSnapshot_eq_of_first characterId bracket data now db hls]
    simp [saveSnapshot]
  | some s1 =>
    by_cases hinc : s1.season_played < data.season_match_statistics.played
    · rw [processSnapshot_eq_of_increase characterId bracket data now db s1 hls hinc]
      simp [recordRatingChange, saveSnapshot]
    · rw [processSnapshot_eq_of_no_increase characterId bracket data now db s1 hls
        (le_of_not_lt hinc)]
      simp [saveSnapshot]

/-- Either no activity is detected and the ledger is untouched, or the
previous snapshot exists, its season played counter strictly increased, and
exactly the computed delta row is appended. -/
lemma processSnapshot_changes_cases (characterId : Nat) (bracket : String)
    (data : PvPBracketData) (now : Nat) (db : Db) :
    ((processSnapshot characterId bracket data now db).1.changed = false ∧
      (processSnapshot characterId bracket data now db).2.rating_changes =
        db.rating_changes) ∨
    (∃ s1, getLatestSnapshot characterId bracket db = some s1 ∧
      s1.season_played < data.season_match_statistics.played ∧
      (processSnapshot characterId bracket data now db).1.changed = true ∧
      (processSnapshot characterId bracket data now db).2.rating_changes =
        db.rating_changes ++
          [⟨db.nextChangeId, characterId, bracket, now, s1.rating, data.rating,
            data.rating - s1.rating,
            data.season_match_statistics.played - s1.season_played,
            data.season_match_statistics.won - s1.season_won,
            data.season_match_statistics.lost - s1.season_lost⟩]) := by
  cases hls : getLatestSnapshot characterId bracket db with
  | none =>
    rw [processSnapshot_eq_of_first characterId bracket data now db hls]
    exact Or.inl ⟨rfl, by simp [saveSnapshot]⟩
  | some s1 =>
    by_cases hinc : s1.season_played < data.season_match_statistics.played
    · rw [processSnapshot_eq_of_increase characterId bracket data now db s1 hls hinc]
      exact Or.inr ⟨s1, rfl, hinc, rfl, by simp [recordRatingChange, saveSnapshot]⟩
    · rw [processSnapshot_eq_of_no_increase characterId bracket data now db s1 hls
        (le_of_not_lt hinc)]
      exact Or.inl ⟨rfl, by simp [saveSnapshot]⟩

/-! ### Claim theorems -/

/-- C1: when a previous snapshot S1 is stored for the pair and the fetched
data S2 has a strictly larger seasonPlayed, processSnapshot reports
changed = true with ratingChange = S2.rating - S1.rating and appends one
RatingChange row carrying the previous rating, the current rating, and the
raw differences playedDelta, wonDelta, lostDelta, with no validation that
wonDelta + lostDelta equals playedDelta (the witness uses mismatched and
negative won/lost differences). -/
theorem processSnapshot_reports_activity (characterId : Nat) (bracket : String)
    (data : PvPBracketData) (now : Nat) (db : Db) (s1 : SnapshotRow)
    (h : getLatestSnapshot characterId bracket db = some s1)
    (h2 : s1.season_played < data.season_match_statistics.played) :
    (processSnapshot characterId bracket data now db).1 =
      { changed := true, ratingChange := some (data.rating - s1.rating) } ∧
    (processSnapshot characterId bracket data now db).2.rating_changes =
      db.rating_changes ++
        [⟨db.nextChangeId, characterId, bracket, now, s1.rating, data.rating,
          data.rating - s1.rating,
          data.season_match_statistics.played - s1.season_played,
          data.season_match_statistics.won - s1.season_won,
          data.season_match_statistics.lost - s1.season_lost⟩] := by
  rw [processSnapshot_eq_of_increase characterId bracket data now db s1 h h2]
  exact ⟨rfl, by simp [recordRatingChange, saveSnapshot]⟩

/-- Witness for C1 at a concrete input with wonDelta = 3, lostDelta = -1,
playedDelta = 3 (mismatched sum and a negative lost difference, recorded
as-is) and a rating drop. -/
theorem processSnapshot_reports_activity_witness :
    (5 : Int) < 8 ∧
    (processSnapshot 1 "shuffle" ⟨90, ⟨8, 6, 1⟩, ⟨0, 0, 0⟩⟩ 20
        { emptyDb with
          pvp_snapshots := [⟨1, 1, "shuffle", 10, 100, 5, 3, 2, 0, 0, 0⟩],
          nextSnapId := 2 }).1 =
      { changed := true, ratingChange := some (-10) } ∧
    (processSnapshot 1 "shuffle" ⟨90, ⟨8, 6, 1⟩, ⟨0, 0, 0⟩⟩ 20
        { emptyDb with
          pvp_snapshots := [⟨1, 1, "shuffle", 10, 100, 5, 3, 2, 0, 0, 0⟩],
          nextSnapId := 2 }).2.rating_changes =
      [⟨1, 1, "shuffle", 20, 100, 90, -10, 3, 3, -1⟩] :=
  ⟨by decide,
    by
      have h := processSnapshot_reports_activity 1 "shuffle" ⟨90, ⟨8, 6, 1⟩, ⟨0, 0, 0⟩⟩ 20
        { emptyDb with
          pvp_snapshots := [⟨1, 1, "shuffle", 10, 100, 5, 3, 2, 0, 0, 0⟩],
          nextSnapId := 2 } ⟨1, 1, "shuffle", 10, 100, 5, 3, 2, 0, 0, 0⟩
        (by decide) (by decide)
      exact ⟨h.1, h.2⟩⟩

/-- C2: when a previous snapshot exists and the fetched seasonPlayed is less
than or equal to the stored one (equal counts or a season reset),
processSnapshot reports no activity and appends no RatingChange row,
regardless of any rating difference. -/
theorem processSnapshot_ignores_nonincrease (characterId : Nat) (bracket : String)
    (data : PvPBracketData) (now : Nat) (db : Db) (s1 : SnapshotRow)
    (h : getLatestSnapshot characterId bracket db = some s1)
    (h2 : data.season_match_statistics.played ≤ s1.season_played) :
    (processSnapshot characterId bracket data now db).1 =
      { changed := false, ratingChange := none } ∧
    (processSnapshot characterId bracket data now db).2.rating_changes =
      db.rating_changes := by
  rw [processSnapshot_eq_of_no_increase characterId bracket data now db s1 h h2]
  exact ⟨rfl, by simp [saveSnapshot]⟩

/-- Witness for C2 at a concrete input with a season-reset decrease of the
played counter and a large rating difference. -/
theorem processSnapshot_ignores_nonincrease_witness :
    (2 : Int) ≤ 50 ∧
    (processSnapshot 1 "blitz" ⟨1900, ⟨2, 1, 1⟩, ⟨0, 0, 0⟩⟩ 20
        { emptyDb with
          pvp_snapshots := [⟨1, 1, "blitz", 10, 1400, 50, 30, 20, 0, 0, 0⟩],
          nextSnapId := 2 }).1 =
      { changed := false, ratingChange := none } ∧
    (processSnapshot 1 "blitz" ⟨1900, ⟨2, 1, 1⟩, ⟨0, 0, 0⟩⟩ 20
        { emptyDb with
          pvp_snapshots := [⟨1, 1, "blitz", 10, 1400, 50, 30, 20, 0, 0, 0⟩],
          nextSnapId := 2 }).2.rating_changes = [] :=
  ⟨by decide,
    by
      have h := processSnapshot_ignores_nonincrease 1 "blitz" ⟨1900, ⟨2, 1, 1⟩, ⟨0, 0, 0⟩⟩ 20
        { emptyDb with
          pvp_snapshots := [⟨1, 1, "blitz", 10, 1400, 50, 30, 20, 0, 0, 0⟩],
          nextSnapId := 2 } ⟨1, 1, "blitz", 10, 1400, 50, 30, 20, 0, 0, 0⟩
        (by decide) (by decide)
      exact ⟨h.1, h.2⟩⟩

/-- C5: when no previous snapshot exists for the pair, processSnapshot
reports no activity and appends no RatingChange row; the function is total,
so a missing prior snapshot raises no error. -/
theorem processSnapshot_first_snapshot (characterId : Nat) (bracket : String)
    (data : PvPBracketData) (now : Nat) (db : Db)
    (h : getLatestSnapshot characterId bracket db = none) :
    (processSnapshot characterId bracket data now db).1 =
      { changed := false, ratingChange := none } ∧
    (processSnapshot characterId bracket data now db).2.rating_changes =
      db.rating_changes := by
  rw [processSnapshot_eq_of_first characterId bracket data now db h]
  exact ⟨rfl, by simp [saveSnapshot]⟩

/-- Witness for C5 on the fresh database. -/
theorem processSnapshot_first_snapshot_witness :
    (processSnapshot 1 "shuffle" ⟨1500, ⟨10, 6, 4⟩, ⟨10, 6, 4⟩⟩ 100 emptyDb).1 =
      { changed := false, ratingChange := none } ∧
    (processSnapshot 1 "shuffle" ⟨1500, ⟨10, 6, 4⟩, ⟨10, 6, 4⟩⟩ 100 emptyDb).2.rating_changes = [] :=
  by
    have h := processSnapshot_first_snapshot 1 "shuffle" ⟨1500, ⟨10, 6, 4⟩, ⟨10, 6, 4⟩⟩ 100
      emptyDb (by decide)
    exact ⟨h.1, h.2⟩

/-- C10: every processSnapshot call appends exactly one snapshot row (its
activity decision is a function of the latest snapshot of the PRE-state, so
the newly written snapshot never serves as its own previous), appends a
rating_changes row exactly when it returns changed = true, and leaves the
characters table and all pre-existing snapshot and rating-change rows
unmodified. -/
theorem processSnapshot_frame (characterId : Nat) (bracket : String)
    (data : PvPBracketData) (now : Nat) (db : Db) :
    (processSnapshot characterId bracket data now db).2.characters = db.characters ∧
    (processSnapshot characterId bracket data now db).2.pvp_snapshots =
      db.pvp_snapshots ++
        [⟨db.nextSnapId, characterId, bracket, now, data.rating,
          data.season_match_statistics.played, data.season_match_statistics.won,
          data.season_match_statistics.lost, data.weekly_match_statistics.played,
          data.weekly_match_statistics.won, data.weekly_match_statistics.lost⟩] ∧
    (processSnapshot characterId bracket data now db).1.changed =
      (match getLatestSnapshot characterId bracket db with
       | none => false
       | some s => decide (data.season_match_statistics.played - s.season_played > 0)) ∧
    ((processSnapshot characterId bracket data now db).1.changed = true →
      ∃ row, (processSnapshot characterId bracket data now db).2.rating_changes =
        db.rating_changes ++ [row]) ∧
    ((processSnapshot characterId bracket data now db).1.changed = false →
      (processSnapshot characterId bracket data now db).2.rating_changes =
        db.rating_changes) := by
  refine ⟨processSnapshot_characters characterId bracket data now db,
    processSnapshot_snapshots characterId bracket data now db, ?_, ?_, ?_⟩
  · cases hls : getLatestSnapshot characterId bracket db with
    | none =>
      rw [processSnapshot_eq_of_first characterId bracket data now db hls]
    | some s1 =>
      by_cases hinc : s1.season_played < data.season_match_statistics.played
      · rw [processSnapshot_eq_of_increase characterId bracket data now db s1 hls hinc]
        exact (decide_eq_true (Int.sub_pos.mpr hinc)).symm
      · rw [processSnapshot_eq_of_no_increase characterId bracket data now db s1 hls
          (le_of_not_lt hinc)]
        exact (decide_eq_false (by
          simp only [gt_iff_lt, not_lt]
          exact Int.sub_nonpos_of_le (le_of_not_lt hinc))).symm
  · intro hchanged
    rcases processSnapshot_changes_cases characterId bracket data now db with
      ⟨hfalse, _⟩ | ⟨s1, _, _, _, heq⟩
    · rw [hchanged] at hfalse; cases hfalse
    · exact ⟨_, heq⟩
  · intro hchanged
    rcases processSnapshot_changes_cases characterId bracket data now db with
      ⟨_, heq⟩ | ⟨s1, _, _, htrue, _⟩
    · exact heq
    · rw [hchanged] at htrue; cases htrue

/-- Witness for C10 at a concrete call on the fresh database. -/
theorem processSnapshot_frame_witness :
    (processSnapshot 1 "blitz" ⟨1400, ⟨3, 2, 1⟩, ⟨3, 2, 1⟩⟩ 9 emptyDb).2.characters = [] ∧
    (processSnapshot 1 "blitz" ⟨1400, ⟨3, 2, 1⟩, ⟨3, 2, 1⟩⟩ 9 emptyDb).2.pvp_snapshots =
      [⟨1, 1, "blitz", 9, 1400, 3, 2, 1, 3, 2, 1⟩] ∧
    (processSnapshot 1 "blitz" ⟨1400, ⟨3, 2, 1⟩, ⟨3, 2, 1⟩⟩ 9 emptyDb).1.changed = false ∧
    (processSnapshot 1 "blitz" ⟨1400, ⟨3, 2, 1⟩, ⟨3, 2, 1⟩⟩ 9 emptyDb).2.rating_changes = [] := by
  have h := processSnapshot_frame 1 "blitz" ⟨1400, ⟨3, 2, 1⟩, ⟨3, 2, 1⟩⟩ 9 emptyDb
  exact ⟨h.1, h.2.1, h.2.2.1, h.2.2.2.2 h.2.2.1⟩

/-- C7: in every database state the program can reach, every recorded
rating_changes row has games_played > 0 and
rating_change = new_rating - old_rating. -/
theorem rating_changes_ledger_invariant {db : Db} (h : Reachable db) :
    ∀ row ∈ db.rating_changes,
      0 < row.games_played ∧ row.rating_change = row.new_rating - row.old_rating := by
  induction h with
  | init =>
    intro row hrow
    simp [emptyDb] at hrow
  | char name realmSlug region hdb ih =>
    intro row hrow
    rcases getOrCreateCharacter_db name realmSlug region _ with heq | ⟨c, heq⟩
    · rw [heq] at hrow
      exact ih row hrow
    · rw [heq] at hrow
      exact ih row hrow
  | snap characterId bracket data now hdb ih =>
    intro row hrow
    rcases processSnapshot_changes_cases characterId bracket data now _ with
      ⟨_, heq⟩ | ⟨s1, _, hinc, _, heq⟩
    · rw [heq] at hrow
      exact ih row hrow
    · rw [heq] at hrow
      rcases List.mem_append.mp hrow with hold | hnew
      · exact ih row hold
      · rw [List.mem_singleton.mp hnew]
        exact ⟨Int.sub_pos.mpr hinc, rfl⟩

/-- Witness for C7 at a reachable state holding one recorded change. -/
theorem rating_changes_ledger_invariant_witness :
    0 < (⟨1, 1, "shuffle", 200, 1500, 1516, 16, 2, 1, 1⟩ : RatingChangeRow).games_played ∧
    (⟨1, 1, "shuffle", 200, 1500, 1516, 16, 2, 1, 1⟩ : RatingChangeRow).rating_change =
      (⟨1, 1, "shuffle", 200, 1500, 1516, 16, 2, 1, 1⟩ : RatingChangeRow).new_rating -
        (⟨1, 1, "shuffle", 200, 1500, 1516, 16, 2, 1, 1⟩ : RatingChangeRow).old_rating :=
  rating_changes_ledger_invariant
    (Reachable.snap 1 "shuffle" ⟨1516, ⟨12, 7, 5⟩, ⟨12, 7, 5⟩⟩ 200
      (Reachable.snap 1 "shuffle" ⟨1500, ⟨10, 6, 4⟩, ⟨10, 6, 4⟩⟩ 100 Reachable.init))
    ⟨1, 1, "shuffle", 200, 1500, 1516, 16, 2, 1, 1⟩ (by decide)

/-- C9: resolve returns the same identifier for case variants of name,
realm and region, and a repeated call never creates a duplicate character:
the second call returns the identifier of the first and leaves the
database unchanged. -/
theorem getOrCreateCharacter_stable (db : Db) (n1 r1 g1 n2 r2 g2 : String)
    (hn : jsToLower n1 = jsToLower n2) (hr : jsToLower r1 = jsToLower r2)
    (hg : jsToLower g1 = jsToLower g2) :
    (getOrCreateCharacter n2 r2 g2 (getOrCreateCharacter n1 r1 g1 db).2).1 =
      (getOrCreateCharacter n1 r1 g1 db).1 ∧
    (getOrCreateCharacter n2 r2 g2 (getOrCreateCharacter n1 r1 g1 db).2).2 =
      (getOrCreateCharacter n1 r1 g1 db).2 := by
  simp only [getOrCreateCharacter, ← hn, ← hr, ← hg]
  generalize jsToLower n1 = n
  generalize jsToLower r1 = r
  generalize jsToLower g1 = g
  by_cases hc : db.characters.any (charMatches n r g)
  · simp only [if_pos hc]
    have hsome : (db.characters.find? (charMatches n r g)).isSome := by
      rw [List.find?_isSome]
      rcases List.any_eq_true.mp hc with ⟨x, hx, hpx⟩
      exact ⟨x, hx, hpx⟩
    rcases Option.isSome_iff_exists.mp hsome with ⟨c, hcfind⟩
    rw [hcfind]
    dsimp only
    rw [if_pos hc, hcfind]
    exact ⟨rfl, rfl⟩
  · simp only [if_neg hc]
    have hall : ∀ y ∈ db.characters, charMatches n r g y = false := by
      intro y hy
      have hfalse : db.characters.any (charMatches n r g) = false :=
        Bool.eq_false_iff.mpr hc
      have := List.any_eq_false.mp hfalse y hy
      exact Bool.eq_false_iff.mpr this
    have hmatch : charMatches n r g ⟨db.nextCharId, n, r, g⟩ = true := by
      simp [charMatches]
    have hfind1 : List.find? (charMatches n r g)
        (db.characters ++ [⟨db.nextCharId, n, r, g⟩]) =
          some ⟨db.nextCharId, n, r, g⟩ := by
      rw [find?_append_of_all_false _ _ _ hall]
      exact List.find?_cons_of_pos _ hmatch
    have hany2 : (db.characters ++
        ([⟨db.nextCharId, n, r, g⟩] : List CharacterRow)).any
          (charMatches n r g) = true := by
      simp [List.any_append, hmatch]
    rw [hfind1]
    rw [if_pos hany2, hfind1]
    exact ⟨rfl, rfl⟩

/-- Witness for C9: resolving Foo/Bar/us and then foo/bar/US returns the
same identifier and creates no second row. -/
theorem getOrCreateCharacter_stable_witness :
    (getOrCreateCharacter "foo" "bar" "US" (getOrCreateCharacter "Foo" "Bar" "us" emptyDb).2).1 =
      (getOrCreateCharacter "Foo" "Bar" "us" emptyDb).1 ∧
    (getOrCreateCharacter "foo" "bar" "US" (getOrCreateCharacter "Foo" "Bar" "us" emptyDb).2).2 =
      (getOrCreateCharacter "Foo" "Bar" "us" emptyDb).2 :=
  getOrCreateCharacter_stable emptyDb "Foo" "Bar" "us" "foo" "bar" "US"
    (by decide) (by decide) (by decide)

/-- Selection rule stated the way the amended claim reads: the result of
the latest-snapshot query is the first row of the insertion-ordered scan
whose timestamp is maximal (timestamp descending, ties broken in favour of
the EARLIEST inserted row). -/
def firstMaxByTimestamp (l : List SnapshotRow) : Option SnapshotRow :=
  l.find? (fun s => l.all (fun r => r.timestamp ≤ s.timestamp))

/-- The DESC LIMIT 1 scan computes exactly the first maximal-timestamp row. -/
lemma latestOf_eq_firstMax (l : List SnapshotRow) :
    latestOf none l = firstMaxByTimestamp l := by
  cases hl : latestOf none l with
  | none =>
    have hnil : l = [] := by
      cases l with
      | nil => rfl
      | cons x rest =>
        rcases latestOf_some_isSome rest x with ⟨s, hs⟩
        rw [show latestOf none (x :: rest) = latestOf (some x) rest from rfl, hs] at hl
        cases hl
    subst hnil
    rfl
  | some s =>
    rcases latestOf_none_spec l s hl with ⟨l₁, l₂, hdec, h₁, h₂⟩
    subst hdec
    unfold firstMaxByTimestamp
    rw [find?_append_of_all_false]
    · rw [List.find?_cons_of_pos]
      rw [List.all_eq_true]
      intro r hr
      rcases List.mem_append.mp hr with hr | hr
      · simp only [decide_eq_true_eq]
        exact le_of_lt (h₁ r hr)
      · rcases List.mem_cons.mp hr with hr | hr
        · subst hr; simp
        · simp only [decide_eq_true_eq]
          exact h₂ r hr
    · intro y hy
      have hys : y.timestamp < s.timestamp := h₁ y hy
      rw [Bool.eq_false_iff]
      intro hcontra
      rw [List.all_eq_true] at hcontra
      have := hcontra s (by simp)
      simp only [decide_eq_true_eq] at this
      omega

/-- C4 counterexample: with two stored snapshots of the same pair sharing
one capture timestamp, the query returns the EARLIEST inserted row (id 1),
not the most recently inserted one (id 2) as the claim states. -/
theorem getLatestSnapshot_tie_counterexample :
    getLatestSnapshot 1 "shuffle"
        { emptyDb with
          pvp_snapshots := [⟨1, 1, "shuffle", 10, 100, 5, 3, 2, 0, 0, 0⟩,
            ⟨2, 1, "shuffle", 10, 200, 9, 6, 3, 0, 0, 0⟩],
          nextSnapId := 3 } =
      some ⟨1, 1, "shuffle", 10, 100, 5, 3, 2, 0, 0, 0⟩ ∧
    ¬ getLatestSnapshot 1 "shuffle"
        { emptyDb with
          pvp_snapshots := [⟨1, 1, "shuffle", 10, 100, 5, 3, 2, 0, 0, 0⟩,
            ⟨2, 1, "shuffle", 10, 200, 9, 6, 3, 0, 0, 0⟩],
          nextSnapId := 3 } =
      some ⟨2, 1, "shuffle", 10, 200, 9, 6, 3, 0, 0, 0⟩ := by
  exact ⟨by decide, by decide⟩

/-- C4 (amended): for every character-and-bracket pair the latest operation
returns the row selected by timestamp descending, and when several rows
share the maximal timestamp the EARLIEST inserted one wins (SQLite's stable
temp-B-tree sort over the rowid-ordered index scan), not the most recently
inserted one. -/
theorem getLatestSnapshot_first_of_maximal (characterId : Nat) (bracket : String)
    (db : Db) :
    getLatestSnapshot characterId bracket db =
      firstMaxByTimestamp (db.pvp_snapshots.filter (snapMatches characterId bracket)) :=
  latestOf_eq_firstMax _

/-- C6 counterexample: both inner calls happen within the same coarse
timestamp second (10).  The middle and outer calls process the SAME fetched
data twice in immediate succession; the claim says the second of them
records no RatingChange, yet it records one (the ledger grows to two rows),
because getLatestSnapshot resolves the timestamp tie to the OLDEST stored
row, diffing the new data against the pre-activity snapshot again. -/
theorem processSnapshot_repoll_counterexample :
    (processSnapshot 1 "shuffle" ⟨1600, ⟨14, 9, 5⟩, ⟨14, 9, 5⟩⟩ 10
        (processSnapshot 1 "shuffle" ⟨1600, ⟨14, 9, 5⟩, ⟨14, 9, 5⟩⟩ 10
          (processSnapshot 1 "shuffle" ⟨1500, ⟨10, 6, 4⟩, ⟨10, 6, 4⟩⟩ 10
            emptyDb).2).2).1.changed = true ∧
    (processSnapshot 1 "shuffle" ⟨1600, ⟨14, 9, 5⟩, ⟨14, 9, 5⟩⟩ 10
        (processSnapshot 1 "shuffle" ⟨1600, ⟨14, 9, 5⟩, ⟨14, 9, 5⟩⟩ 10
          (processSnapshot 1 "shuffle" ⟨1500, ⟨10, 6, 4⟩, ⟨10, 6, 4⟩⟩ 10
            emptyDb).2).2).2.rating_changes.length = 2 := by
  exact ⟨by decide, by decide⟩

/-- C6 (amended): provided the first call's capture timestamp is strictly
newer than every stored snapshot of the pair (the normal case: no other
insert in the same second), processing the same fetched data twice in
immediate succession appends a snapshot row both times but records no
RatingChange on the second call. -/
theorem processSnapshot_repoll_no_change (characterId : Nat) (bracket : String)
    (data : PvPBracketData) (t1 t2 : Nat) (db : Db)
    (hfresh : ∀ r ∈ db.pvp_snapshots, snapMatches characterId bracket r = true →
      r.timestamp < t1) :
    (processSnapshot characterId bracket data t2
        (processSnapshot characterId bracket data t1 db).2).1.changed = false ∧
    (processSnapshot characterId bracket data t2
        (processSnapshot characterId bracket data t1 db).2).2.rating_changes =
      (processSnapshot characterId bracket data t1 db).2.rating_changes ∧
    (processSnapshot characterId bracket data t2
        (processSnapshot characterId bracket data t1 db).2).2.pvp_snapshots =
      db.pvp_snapshots ++
        [⟨db.nextSnapId, characterId, bracket, t1, data.rating,
          data.season_match_statistics.played, data.season_match_statistics.won,
          data.season_match_statistics.lost, data.weekly_match_statistics.played,
          data.weekly_match_statistics.won, data.weekly_match_statistics.lost⟩,
         ⟨db.nextSnapId + 1, characterId, bracket, t2, data.rating,
          data.season_match_statistics.played, data.season_match_statistics.won,
          data.season_match_statistics.lost, data.weekly_match_statistics.played,
          data.weekly_match_statistics.won, data.weekly_match_statistics.lost⟩] := by
  have hsnap1 := processSnapshot_snapshots characterId bracket data t1 db
  have hmatch := snapMatches_saved characterId bracket data t1 db
  have hlatest : getLatestSnapshot characterId bracket
      (processSnapshot characterId bracket data t1 db).2 =
        some ⟨db.nextSnapId, characterId, bracket, t1, data.rating,
          data.season_match_statistics.played, data.season_match_statistics.won,
          data.season_match_statistics.lost, data.weekly_match_statistics.played,
          data.weekly_match_statistics.won, data.weekly_match_statistics.lost⟩ := by
    show latestOf none _ = _
    rw [hsnap1, List.filter_append, List.filter_cons, if_pos hmatch, List.filter_nil]
    exact latestOf_none_append_fresh _ _
      (fun r hr => hfresh r (List.mem_filter.mp hr).1 (List.mem_filter.mp hr).2)
  rw [processSnapshot_eq_of_no_increase characterId bracket data t2 _ _ hlatest (le_refl _)]
  refine ⟨rfl, by simp [saveSnapshot], ?_⟩
  show (saveSnapshot characterId bracket data t2 _).pvp_snapshots = _
  rw [saveSnapshot]
  simp only [hsnap1, processSnapshot_nextSnapId characterId bracket data t1 db,
    List.append_assoc]
  rfl

/-- Witness for the amended C6 on a database whose only stored snapshot of
the pair is strictly older than the first call's timestamp. -/
theorem processSnapshot_repoll_no_change_witness :
    (processSnapshot 1 "shuffle" ⟨1600, ⟨9, 6, 3⟩, ⟨0, 0, 0⟩⟩ 10
        (processSnapshot 1 "shuffle" ⟨1600, ⟨9, 6, 3⟩, ⟨0, 0, 0⟩⟩ 10
          { emptyDb with
            pvp_snapshots := [⟨1, 1, "shuffle", 5, 1500, 5, 3, 2, 0, 0, 0⟩],
            nextSnapId := 2 }).2).1.changed = false ∧
    (processSnapshot 1 "shuffle" ⟨1600, ⟨9, 6, 3⟩, ⟨0, 0, 0⟩⟩ 10
        (processSnapshot 1 "shuffle" ⟨1600, ⟨9, 6, 3⟩, ⟨0, 0, 0⟩⟩ 10
          { emptyDb with
            pvp_snapshots := [⟨1, 1, "shuffle", 5, 1500, 5, 3, 2, 0, 0, 0⟩],
            nextSnapId := 2 }).2).2.rating_changes =
      (processSnapshot 1 "shuffle" ⟨1600, ⟨9, 6, 3⟩, ⟨0, 0, 0⟩⟩ 10
        { emptyDb with
          pvp_snapshots := [⟨1, 1, "shuffle", 5, 1500, 5, 3, 2, 0, 0, 0⟩],
          nextSnapId := 2 }).2.rating_changes ∧
    (processSnapshot 1 "shuffle" ⟨1600, ⟨9, 6, 3⟩, ⟨0, 0, 0⟩⟩ 10
        (processSnapshot 1 "shuffle" ⟨1600, ⟨9, 6, 3⟩, ⟨0, 0, 0⟩⟩ 10
          { emptyDb with
            pvp_snapshots := [⟨1, 1, "shuffle", 5, 1500, 5, 3, 2, 0, 0, 0⟩],
            nextSnapId := 2 }).2).2.pvp_snapshots =
      [⟨1, 1, "shuffle", 5, 1500, 5, 3, 2, 0, 0, 0⟩,
       ⟨2, 1, "shuffle", 10, 1600, 9, 6, 3, 0, 0, 0⟩,
       ⟨3, 1, "shuffle", 10, 1600, 9, 6, 3, 0, 0, 0⟩] := by
  exact processSnapshot_repoll_no_change 1 "shuffle" ⟨1600, ⟨9, 6, 3⟩, ⟨0, 0, 0⟩⟩ 10 10
    { emptyDb with
      pvp_snapshots := [⟨1, 1, "shuffle", 5, 1500, 5, 3, 2, 0, 0, 0⟩],
      nextSnapId := 2 }
    (by decide)

/-- C8 counterexample: `if (bracket)` treats the empty string as falsy, so
filtering by the empty bracket name disables the filter: the query returns
a row that does not belong to bracket "", not the subset belonging to that
bracket (which is empty). -/
theorem getRatingChanges_empty_bracket_counterexample :
    getRatingChanges 1 (some "")
        { emptyDb with
          rating_changes := [⟨1, 1, "shuffle", 5, 100, 110, 10, 2, 1, 1⟩],
          nextChangeId := 2 } =
      [⟨1, 1, "shuffle", 5, 100, 110, 10, 2, 1, 1⟩] ∧
    ¬ (⟨1, 1, "shuffle", 5, 100, 110, 10, 2, 1, 1⟩ : RatingChangeRow).bracket = "" := by
  exact ⟨by decide, by decide⟩

/-- C8 (amended): history returns all recorded entries of the character in
non-decreasing timestamp order, and for every NON-EMPTY bracket name the
bracket-filtered query is exactly the bracket-filter of the unfiltered
sequence, preserving its order (an empty bracket string is falsy in the
JavaScript guard and disables the filter instead). -/
theorem getRatingChanges_ordered_and_filtered (characterId : Nat) (db : Db)
    (b : String) (hb : b ≠ "") :
    List.Sorted tsLE (getRatingChanges characterId none db) ∧
    List.Perm (getRatingChanges characterId none db)
      (db.rating_changes.filter (fun row => row.character_id == characterId)) ∧
    getRatingChanges characterId (some b) db =
      (getRatingChanges characterId none db).filter (fun row => row.bracket == b) := by
  refine ⟨?_, ?_, ?_⟩
  · simp only [getRatingChanges]
    exact List.sorted_insertionSort tsLE _
  · simp only [getRatingChanges]
    exact List.perm_insertionSort tsLE _
  · have hbeq : (b == "") = false := by simp [hb]
    simp only [getRatingChanges, hbeq, Bool.false_eq_true, if_false]
    exact (filter_insertionSort _ _).symm

/-- Witness for the amended C8 on a ledger holding two out-of-order rows in
two brackets. -/
theorem getRatingChanges_ordered_and_filtered_witness :
    List.Sorted tsLE (getRatingChanges 1 none
      { emptyDb with
        rating_changes := [⟨1, 1, "shuffle", 9, 100, 110, 10, 2, 1, 1⟩,
          ⟨2, 1, "blitz", 5, 200, 190, -10, 1, 0, 1⟩],
        nextChangeId := 3 }) ∧
    List.Perm (getRatingChanges 1 none
      { emptyDb with
        rating_changes := [⟨1, 1, "shuffle", 9, 100, 110, 10, 2, 1, 1⟩,
          ⟨2, 1, "blitz", 5, 200, 190, -10, 1, 0, 1⟩],
        nextChangeId := 3 })
      (List.filter (fun row => row.character_id == 1)
        (Db.rating_changes
          { emptyDb with
            rating_changes := [⟨1, 1, "shuffle", 9, 100, 110, 10, 2, 1, 1⟩,
              ⟨2, 1, "blitz", 5, 200, 190, -10, 1, 0, 1⟩],
            nextChangeId := 3 })) ∧
    getRatingChanges 1 (some "shuffle")
      { emptyDb with
        rating_changes := [⟨1, 1, "shuffle", 9, 100, 110, 10, 2, 1, 1⟩,
          ⟨2, 1, "blitz", 5, 200, 190, -10, 1, 0, 1⟩],
        nextChangeId := 3 } =
      List.filter (fun row => row.bracket == "shuffle")
        (getRatingChanges 1 none
          { emptyDb with
            rating_changes := [⟨1, 1, "shuffle", 9, 100, 110, 10, 2, 1, 1⟩,
              ⟨2, 1, "blitz", 5, 200, 190, -10, 1, 0, 1⟩],
            nextChangeId := 3 }) := by
  exact getRatingChanges_ordered_and_filtered 1
    { emptyDb with
      rating_changes := [⟨1, 1, "shuffle", 9, 100, 110, 10, 2, 1, 1⟩,
        ⟨2, 1, "blitz", 5, 200, 190, -10, 1, 0, 1⟩],
      nextChangeId := 3 } "shuffle" (by decide)

/-- C3 counterexample: pollOnce over brackets [shuffle, blitz] where the
shuffle fetch throws.  The claim says the blitz bracket is still fetched
and processed; processing always stores a snapshot, yet no blitz snapshot
exists afterwards (first conjunct), while the same cycle without the
failure does store one (second conjunct): the try/catch wraps the whole
bracket loop, so the failure aborts the remaining brackets. -/
theorem pollOnce_failure_skips_rest_counterexample :
    ((pollOnce
        (fun br => if br == "shuffle-priest-shadow" then
          FetchOutcome.failure "Failed to fetch bracket shuffle-priest-shadow: 500"
        else FetchOutcome.success ⟨1500, ⟨10, 6, 4⟩, ⟨10, 6, 4⟩⟩)
        "bigbrainwiz" "malganis" "us"
        ["shuffle-priest-shadow", "blitz-priest-shadow"] 0 emptyDb).pvp_snapshots.filter
          (fun s => s.bracket == "blitz-priest-shadow")) = [] ∧
    ((pollOnce (fun _ => FetchOutcome.success ⟨1500, ⟨10, 6, 4⟩, ⟨10, 6, 4⟩⟩)
        "bigbrainwiz" "malganis" "us"
        ["shuffle-priest-shadow", "blitz-priest-shadow"] 0 emptyDb).pvp_snapshots.filter
          (fun s => s.bracket == "blitz-priest-shadow")) ≠ [] := by
  exact ⟨by decide, by decide⟩

/-- C3 (amended): a fetch failure for one bracket is caught (and logged) at
the CYCLE level: the loop returns normally and the work of the brackets
processed before the failure is kept, but the failing bracket and every
bracket after it are skipped for the rest of that cycle instead of being
fetched and processed. -/
theorem pollBrackets_failure_stops_cycle (fetch : String → FetchOutcome) (characterId : Nat) :
    ∀ (pre post : List String) (b msg : String) (now : Nat) (db : Db),
      (∀ x ∈ pre, (fetch x).isFailure = false) →
      fetch b = FetchOutcome.failure msg →
      pollBrackets fetch characterId (pre ++ b :: post) now db =
        pollBrackets fetch characterId pre now db
  | [], post, b, msg, now, db, _, hb => by
    simp only [List.nil_append, pollBrackets, hb]
  | x :: xs, post, b, msg, now, db, hpre, hb => by
    cases hfx : fetch x with
    | success data =>
      simp only [List.cons_append, pollBrackets, hfx]
      exact pollBrackets_failure_stops_cycle fetch characterId xs post b msg now _
        (fun y hy => hpre y (List.mem_cons_of_mem x hy)) hb
    | notFound =>
      simp only [List.cons_append, pollBrackets, hfx]
      exact pollBrackets_failure_stops_cycle fetch characterId xs post b msg now db
        (fun y hy => hpre y (List.mem_cons_of_mem x hy)) hb
    | failure m =>
      have hx := hpre x (List.mem_cons_self x xs)
      rw [hfx] at hx
      simp [FetchOutcome.isFailure] at hx

/-- Witness for the amended C3: one healthy bracket before the failing one,
one after; the cycle equals the cycle over the healthy head alone. -/
theorem pollBrackets_failure_stops_cycle_witness :
    pollBrackets
        (fun br => if br == "blitz-priest-shadow" then FetchOutcome.failure "500"
          else FetchOutcome.success ⟨1500, ⟨10, 6, 4⟩, ⟨10, 6, 4⟩⟩) 1
        (["shuffle-priest-shadow"] ++ "blitz-priest-shadow" :: ["rbg-priest-shadow"]) 0 emptyDb =
      pollBrackets
        (fun br => if br == "blitz-priest-shadow" then FetchOutcome.failure "500"
          else FetchOutcome.success ⟨1500, ⟨10, 6, 4⟩, ⟨10, 6, 4⟩⟩) 1
        ["shuffle-priest-shadow"] 0 emptyDb := by
  exact pollBrackets_failure_stops_cycle
    (fun br => if br == "blitz-priest-shadow" then FetchOutcome.failure "500"
      else FetchOutcome.success ⟨1500, ⟨10, 6, 4⟩, ⟨10, 6, 4⟩⟩) 1
    ["shuffle-priest-shadow"] ["rbg-priest-shadow"] "blitz-priest-shadow" "500" 0 emptyDb
    (by decide) (by decide)
